import Mathlib

set_option maxHeartbeats 1000000

/-!
Verification of the aiologger asynchronous stream-handler core.

The definitions below are a shallow embedding of
`src/aiologger/handlers/streams.py` (class `AsyncStreamHandler`) and — where
the repository ships only the tests of a unit (`src/tests/test_logger.py` for
class `Logger`) — of the `Logger` operations as the specification describes
them; every such definition is marked `Modelled from the spec:` in its doc
comment.  Byte strings are modelled as `String` (the UTF-8 encoding step
`msg.encode()` is an opaque bijection and is modelled as the identity).
Cooperative concurrency is modelled as explicit small-step interleaving: a
schedule is a list of task indices, and each step runs one task up to its next
suspension point.
-/

namespace Aiologger

/-- A log record (`aiologger.records.LogRecord`): immutable snapshot of one log
event.  Only the two fields the verified claims inspect are modelled: the
numeric severity level and the raw message. -/
structure LogRecord where
  level : Nat
  msg : String
deriving DecidableEq

/-- The Python exceptions the modelled code can raise, as an enumeration. -/
inductive PyExc where
  | attributeError
  | connectError
  | writeError
  | drainError
  | formatError
  | valueError
  | noHandlersError
deriving DecidableEq

/-- The byte sink behind a `StreamWriter`: `write` synchronously hands a whole
chunk of bytes to the transport (it joins the buffered chunks), `drain` waits
until everything handed over so far has been delivered to the underlying
stream. -/
structure Sink where
  buffered : List String
  delivered : List String
deriving DecidableEq

/-- `StreamWriter.write`: synchronous, appends the whole chunk. -/
def Sink.write (s : Sink) (chunk : String) : Sink :=
  { s with buffered := s.buffered ++ [chunk] }

/-- `StreamWriter.drain`: all buffered chunks become delivered. -/
def Sink.drain (s : Sink) : Sink :=
  { buffered := [], delivered := s.delivered ++ s.buffered }

/-- Sequential state of one `AsyncStreamHandler`.  `writer` is
`self.writer : Optional[StreamWriter]`, identified by the serial number of the
`connect_write_pipe` call that produced it; `sink` is the byte sink of the
underlying stream; `acquisitions` counts how many times
`loop.connect_write_pipe` ran for this handler; `releases` counts how many
times `self.writer.close()` ran. -/
structure HandlerState where
  writer : Option Nat
  sink : Sink
  acquisitions : Nat
  releases : Nat
deriving DecidableEq

/-- `AsyncStreamHandler.terminator = "\n"`. -/
def terminator : String := "\n"

/-- `AsyncStreamHandler.initialized`: `self.writer is not None`. -/
def initialized (s : HandlerState) : Bool := s.writer.isSome

/-- A handler fresh out of `AsyncStreamHandler.__init__`: `self.writer = None`,
nothing acquired, nothing released, nothing written. -/
def freshHandler : HandlerState := ⟨none, ⟨[], []⟩, 0, 0⟩

/-- Outcomes of the fallible external collaborators during one `emit` call:
the formatter result for the record, and whether `connect_write_pipe`,
`writer.write` and `writer.drain` succeed. -/
structure EmitEnv where
  fmt : LogRecord → Except PyExc String
  connectOk : Bool
  writeOk : Bool
  drainOk : Bool

/-- `AsyncStreamHandler._init_writer`, sequential execution (the
initialization lock is uncontended): under the lock, run
`loop.connect_write_pipe(self.protocol_class, self.stream)` — which may fail —
and assign `self.writer = StreamWriter(...)`.  On failure the exception
propagates and the writer is left unassigned (the `async with` releases the
lock). -/
def init_writer (env : EmitEnv) (s : HandlerState) : Except PyExc HandlerState :=
  if env.connectOk then
    Except.ok
      { s with
        acquisitions := s.acquisitions + 1
        writer := some (s.acquisitions + 1) }
  else Except.error PyExc.connectError

/-- Result of one `emit` call as seen by its caller: normal return, normal
return after the `except` clause routed a failure to
`await self.handle_error(record, exc)`, or an exception propagated to the
caller. -/
inductive EmitOutcome where
  | ok
  | handledError (e : PyExc)
  | raised (e : PyExc)
deriving DecidableEq

/-- The `try` block of `AsyncStreamHandler.emit` together with its
`except Exception as exc: await self.handle_error(record, exc)` clause:
`msg = self.formatter.format(record) + self.terminator`,
`self.writer.write(msg.encode())`, `await self.writer.drain()`; any failure
inside the block is routed to the `handle_error` hook. -/
def emitTry (env : EmitEnv) (s : HandlerState) (r : LogRecord) :
    HandlerState × EmitOutcome :=
  match env.fmt r with
  | Except.error e => (s, EmitOutcome.handledError e)
  | Except.ok text =>
    if env.writeOk then
      let s1 := { s with sink := s.sink.write (text ++ terminator) }
      if env.drainOk then ({ s1 with sink := s1.sink.drain }, EmitOutcome.ok)
      else (s1, EmitOutcome.handledError PyExc.drainError)
    else (s, EmitOutcome.handledError PyExc.writeError)

/-- `AsyncStreamHandler.emit`:
`if not self.initialized: await self._init_writer()` and then the `try`
block.  The `_init_writer` call sits BEFORE the `try`, so an initialization
failure propagates to the caller of `emit` instead of being routed to
`handle_error`. -/
def emit (env : EmitEnv) (s : HandlerState) (r : LogRecord) :
    HandlerState × EmitOutcome :=
  if initialized s then emitTry env s r
  else
    match init_writer env s with
    | Except.error e => (s, EmitOutcome.raised e)
    | Except.ok s1 => emitTry env s1 r

/-- `AsyncStreamHandler.flush`: `await self.writer.drain()`.  When
`self.writer` is `None` the attribute access raises `AttributeError`. -/
def flush (env : EmitEnv) (s : HandlerState) : Except PyExc HandlerState :=
  match s.writer with
  | none => Except.error PyExc.attributeError
  | some _ =>
    if env.drainOk then Except.ok { s with sink := s.sink.drain }
    else Except.error PyExc.drainError

/-- `AsyncStreamHandler.close`: `if not self.initialized: return`, then
`await self.flush()`, `self.writer.close()`, `self.writer = None`. -/
def close (env : EmitEnv) (s : HandlerState) : Except PyExc HandlerState :=
  if initialized s then
    match flush env s with
    | Except.error e => Except.error e
    | Except.ok s1 =>
      Except.ok { s1 with releases := s1.releases + 1, writer := none }
  else Except.ok s

/-- `n` sequential `close` calls on the same handler, stopping at the first
propagated exception. -/
def closeIter (env : EmitEnv) : Nat → HandlerState → Except PyExc HandlerState
  | 0, s => Except.ok s
  | n + 1, s =>
    match close env s with
    | Except.error e => Except.error e
    | Except.ok s1 => closeIter env n s1

/-- Modelled from the spec: the default `Formatter` (an external collaborator,
`aiologger.formatters.base` is not under src/) renders the record's raw
message: `format(record) -> text`. -/
def defaultFormat (r : LogRecord) : Except PyExc String := Except.ok r.msg

/-- An environment in which every collaborator succeeds and the formatter is
the default one. -/
def okEnv : EmitEnv := ⟨defaultFormat, true, true, true⟩

/-- An environment in which `connect_write_pipe` fails. -/
def connectFailEnv : EmitEnv := ⟨defaultFormat, false, true, true⟩

/-- A concrete record at level INFO. -/
def rec0 : LogRecord := ⟨20, "Xablau"⟩

/-- A concrete initialized handler with one pending and one delivered chunk. -/
def demoInit : HandlerState := ⟨some 1, ⟨["a"], ["b"]⟩, 1, 0⟩

/-- An environment whose formatter fails on every record. -/
def fmtFailEnv : EmitEnv := ⟨fun _ => Except.error PyExc.formatError, true, true, true⟩

/-- C2 counterexample: on a never-initialized handler a sink-acquisition
failure during the lazy initialization performed by `emit` PROPAGATES to the
caller (`EmitOutcome.raised`) and is not routed to the `handle_error` hook,
because `_init_writer` is awaited before the `try` block of `emit`. -/
theorem emit_acquisition_failure_propagates :
    emit connectFailEnv freshHandler rec0 =
      (freshHandler, EmitOutcome.raised PyExc.connectError) ∧
    (emit connectFailEnv freshHandler rec0).2 ≠
      EmitOutcome.handledError PyExc.connectError := by
  exact ⟨rfl, by decide⟩

/-- C2 (amended): failures arising inside emit's `try` block — formatting
failure, write failure, drain failure — are routed to the `handle_error` hook
and not propagated to the caller, both when the writer was already
initialized and when this very `emit` call lazily initialized it first; a
sink-acquisition failure during lazy initialization instead propagates to the
caller of `emit`, and the writer then remains uninitialized (the state is
unchanged) so a subsequent `emit` may retry acquisition. -/
theorem emit_error_routing (env : EmitEnv) (s : HandlerState) (r : LogRecord) :
    (∀ e, initialized s = true → env.fmt r = Except.error e →
      emit env s r = (s, EmitOutcome.handledError e)) ∧
    (∀ t, initialized s = true → env.fmt r = Except.ok t → env.writeOk = false →
      emit env s r = (s, EmitOutcome.handledError PyExc.writeError)) ∧
    (∀ t, initialized s = true → env.fmt r = Except.ok t → env.writeOk = true →
      env.drainOk = false →
      emit env s r =
        ({ s with sink := s.sink.write (t ++ terminator) },
          EmitOutcome.handledError PyExc.drainError)) ∧
    (∀ s1, initialized s = false → env.connectOk = true →
      init_writer env s = Except.ok s1 →
      ((∀ e, env.fmt r = Except.error e →
          emit env s r = (s1, EmitOutcome.handledError e)) ∧
       (∀ t, env.fmt r = Except.ok t → env.writeOk = false →
          emit env s r = (s1, EmitOutcome.handledError PyExc.writeError)) ∧
       (∀ t, env.fmt r = Except.ok t → env.writeOk = true →
          env.drainOk = false →
          emit env s r =
            ({ s1 with sink := s1.sink.write (t ++ terminator) },
              EmitOutcome.handledError PyExc.drainError)))) ∧
    (initialized s = false → env.connectOk = false →
      emit env s r = (s, EmitOutcome.raised PyExc.connectError)) := by
  refine ⟨?_, ?_, ?_, ?_, ?_⟩
  · intro e hinit hfmt
    simp [emit, hinit, emitTry, hfmt]
  · intro t hinit hfmt hw
    simp [emit, hinit, emitTry, hfmt, hw]
  · intro t hinit hfmt hw hd
    simp [emit, hinit, emitTry, hfmt, hw, hd]
  · intro s1 hinit hc hiw
    refine ⟨?_, ?_, ?_⟩
    · intro e hfmt
      simp [emit, hinit, hiw, emitTry, hfmt]
    · intro t hfmt hw
      simp [emit, hinit, hiw, emitTry, hfmt, hw]
    · intro t hfmt hw hd
      simp [emit, hinit, hiw, emitTry, hfmt, hw, hd]
  · intro hinit hc
    simp [emit, hinit, init_writer, hc]

/-- Witness for `emit_error_routing`: a formatting failure is routed to
`handle_error` both on an already-initialized handler and on a fresh handler
that this emit call lazily initializes first, while a connect failure on a
fresh handler propagates. -/
theorem emit_error_routing_witness :
    emit fmtFailEnv demoInit rec0 =
      (demoInit, EmitOutcome.handledError PyExc.formatError) ∧
    emit fmtFailEnv freshHandler rec0 =
      (⟨some 1, ⟨[], []⟩, 1, 0⟩, EmitOutcome.handledError PyExc.formatError) ∧
    emit connectFailEnv freshHandler rec0 =
      (freshHandler, EmitOutcome.raised PyExc.connectError) :=
  ⟨(emit_error_routing fmtFailEnv demoInit rec0).1 PyExc.formatError rfl rfl,
   ((emit_error_routing fmtFailEnv freshHandler rec0).2.2.2.1
      ⟨some 1, ⟨[], []⟩, 1, 0⟩ rfl rfl rfl).1 PyExc.formatError rfl,
   (emit_error_routing connectFailEnv freshHandler rec0).2.2.2.2 rfl rfl⟩

/-- C3 counterexample: `flush` on a never-initialized handler is not a no-op:
it fails, with the AttributeError arising from `self.writer.drain()` when
`self.writer` is `None`. -/
theorem flush_uninitialized_fails :
    flush okEnv freshHandler = Except.error PyExc.attributeError := rfl

/-- C3 (amended): on a never-initialized handler `flush` raises
(AttributeError on the absent writer) instead of being a no-op — the no-throw
guarantee at shutdown comes from the caller, which skips uninitialized
handlers; on an initialized handler `flush` waits until every byte previously
handed to the writer has been delivered to the sink. -/
theorem flush_spec (env : EmitEnv) (s : HandlerState) :
    (initialized s = false → flush env s = Except.error PyExc.attributeError) ∧
    (initialized s = true → env.drainOk = true →
      flush env s =
        Except.ok { s with sink := ⟨[], s.sink.delivered ++ s.sink.buffered⟩ }) := by
  constructor
  · intro h
    cases hw : s.writer with
    | none => simp [flush, hw]
    | some w => simp [initialized, hw] at h
  · intro h hd
    cases hw : s.writer with
    | none => simp [initialized, hw] at h
    | some w => simp [flush, hw, hd, Sink.drain]

/-- Witness for `flush_spec` at concrete handler states. -/
theorem flush_spec_witness :
    flush okEnv freshHandler = Except.error PyExc.attributeError ∧
    flush okEnv demoInit =
      Except.ok
        { demoInit with
          sink := ⟨[], demoInit.sink.delivered ++ demoInit.sink.buffered⟩ } :=
  ⟨(flush_spec okEnv freshHandler).1 rfl, (flush_spec okEnv demoInit).2 rfl rfl⟩

/-- `close` on an uninitialized handler returns immediately. -/
theorem close_uninitialized (env : EmitEnv) (s : HandlerState)
    (h : initialized s = false) : close env s = Except.ok s := by
  simp [close, h]

/-- Iterated `close` on an uninitialized handler stays a no-op. -/
theorem closeIter_uninitialized (env : EmitEnv) (s : HandlerState)
    (h : initialized s = false) : ∀ n, closeIter env n s = Except.ok s := by
  intro n
  induction n with
  | zero => rfl
  | succ n ih => simp [closeIter, close_uninitialized env s h, ih]

/-- `close` on an initialized handler flushes, releases the writer once and
clears the reference. -/
theorem close_initialized (env : EmitEnv) (s : HandlerState)
    (hinit : initialized s = true) (hd : env.drainOk = true) :
    close env s =
      Except.ok
        { writer := none, sink := s.sink.drain, acquisitions := s.acquisitions,
          releases := s.releases + 1 } := by
  cases hw : s.writer with
  | none => simp [initialized, hw] at hinit
  | some w => simp [close, initialized, hw, flush, hd]

/-- C6: calling `close` N ≥ 1 times sequentially performs the underlying
writer release exactly once: the first close on an initialized handler
flushes (drains the sink), releases the writer (`releases` grows by exactly
one) and clears the writer reference — the closed state; every further close,
and any close on a never-initialized handler, is a no-op and not an error. -/
theorem close_releases_exactly_once (env : EmitEnv) (s : HandlerState) (N : Nat)
    (hd : env.drainOk = true) (hN : 1 ≤ N) :
    (initialized s = true →
      closeIter env N s =
        Except.ok
          { writer := none, sink := s.sink.drain,
            acquisitions := s.acquisitions, releases := s.releases + 1 }) ∧
    (initialized s = false → closeIter env N s = Except.ok s) := by
  obtain ⟨n, rfl⟩ : ∃ n, N = n + 1 := ⟨N - 1, (Nat.succ_pred_eq_of_pos hN).symm⟩
  constructor
  · intro hinit
    have h1 : close env s = Except.ok
        { writer := none, sink := s.sink.drain, acquisitions := s.acquisitions,
          releases := s.releases + 1 } := close_initialized env s hinit hd
    have h2 : closeIter env n
        { writer := none, sink := s.sink.drain, acquisitions := s.acquisitions,
          releases := s.releases + 1 } = Except.ok
        { writer := none, sink := s.sink.drain, acquisitions := s.acquisitions,
          releases := s.releases + 1 } :=
      closeIter_uninitialized env
        { writer := none, sink := s.sink.drain, acquisitions := s.acquisitions,
          releases := s.releases + 1 } rfl n
    simp [closeIter, h1, h2]
  · intro hinit
    exact closeIter_uninitialized env s hinit (n + 1)

/-- Witness for `close_releases_exactly_once`: three sequential closes on a
concrete initialized handler release the writer exactly once. -/
theorem close_releases_exactly_once_witness :
    closeIter okEnv 3 demoInit =
      Except.ok
        { writer := none, sink := demoInit.sink.drain,
          acquisitions := demoInit.acquisitions,
          releases := demoInit.releases + 1 } :=
  (close_releases_exactly_once okEnv demoInit 3 rfl (by decide)).1 rfl

/-- Observation of the sink chunks an operation produced starting from an
earlier sink state: the newly delivered chunks and the still-buffered
chunks. -/
def newChunks (old new : Sink) : List String × List String :=
  (new.delivered.drop old.delivered.length, new.buffered)

/-- On any uninitialized handler whose sink has nothing buffered, `emit`
behaves exactly as on a freshly constructed handler: same outcome, same newly
produced chunks, and exactly the same number of new writer acquisitions. -/
theorem emit_uninit_like_fresh (env : EmitEnv) (s1 : HandlerState)
    (r : LogRecord) (h1 : s1.writer = none) (hb1 : s1.sink.buffered = []) :
    (emit env s1 r).2 = (emit env freshHandler r).2 ∧
    newChunks s1.sink (emit env s1 r).1.sink =
      newChunks freshHandler.sink (emit env freshHandler r).1.sink ∧
    (emit env s1 r).1.acquisitions =
      s1.acquisitions + (emit env freshHandler r).1.acquisitions := by
  cases hco : env.connectOk with
  | false =>
    simp [emit, initialized, h1, init_writer, hco, newChunks, freshHandler, hb1]
  | true =>
    cases hf : env.fmt r with
    | error e =>
      simp [emit, initialized, h1, init_writer, hco, emitTry, hf, newChunks,
        freshHandler, hb1]
    | ok t =>
      cases hw : env.writeOk with
      | false =>
        simp [emit, initialized, h1, init_writer, hco, emitTry, hf, hw,
          newChunks, freshHandler, hb1]
      | true =>
        cases hd : env.drainOk with
        | false =>
          simp [emit, initialized, h1, init_writer, hco, emitTry, hf, hw, hd,
            newChunks, freshHandler, Sink.write, hb1]
        | true =>
          simp [emit, initialized, h1, init_writer, hco, emitTry, hf, hw, hd,
            newChunks, freshHandler, Sink.write, Sink.drain, hb1,
            List.drop_left]

/-- C10: a closed handler is back in the uninitialized state (the writer
reference is cleared), so a subsequent `emit` does not fail on account of the
close: it behaves exactly like `emit` on a freshly constructed handler — same
outcome, same newly produced sink chunks, and the same number of fresh writer
acquisitions (close followed by emit behaves like emit after construction). -/
theorem emit_after_close_like_fresh (cenv env : EmitEnv) (s sc : HandlerState)
    (r : LogRecord) (hinit : initialized s = true)
    (hc : close cenv s = Except.ok sc) :
    initialized sc = false ∧
    (emit env sc r).2 = (emit env freshHandler r).2 ∧
    newChunks sc.sink (emit env sc r).1.sink =
      newChunks freshHandler.sink (emit env freshHandler r).1.sink ∧
    (emit env sc r).1.acquisitions =
      sc.acquisitions + (emit env freshHandler r).1.acquisitions := by
  have hcd : cenv.drainOk = true := by
    cases hww : s.writer with
    | none => simp [initialized, hww] at hinit
    | some w =>
      cases hcd : cenv.drainOk with
      | true => rfl
      | false => simp [close, initialized, hww, flush, hcd] at hc
  have hsc : sc = { writer := none, sink := s.sink.drain,
                    acquisitions := s.acquisitions,
                    releases := s.releases + 1 } := by
    have hcl := close_initialized cenv s hinit hcd
    rw [hcl] at hc
    injection hc with h
    exact h.symm
  subst hsc
  exact ⟨rfl, emit_uninit_like_fresh env _ r rfl rfl⟩

/-- The concrete result of closing `demoInit`. -/
def demoClosed : HandlerState := ⟨none, ⟨[], ["b", "a"]⟩, 1, 1⟩

/-- Witness for `emit_after_close_like_fresh` on a concrete closed handler. -/
theorem emit_after_close_like_fresh_witness :
    initialized demoClosed = false ∧
    (emit okEnv demoClosed rec0).2 = (emit okEnv freshHandler rec0).2 ∧
    newChunks demoClosed.sink (emit okEnv demoClosed rec0).1.sink =
      newChunks freshHandler.sink (emit okEnv freshHandler rec0).1.sink ∧
    (emit okEnv demoClosed rec0).1.acquisitions =
      demoClosed.acquisitions + (emit okEnv freshHandler rec0).1.acquisitions :=
  emit_after_close_like_fresh okEnv okEnv demoInit demoClosed rec0 rfl rfl

/-- Modelled from the spec: `Logger.with_default_handlers` (class `Logger` is
not under src/, only its tests are) registers a stdout handler at threshold
DEBUG = 10 and a stderr handler at threshold WARNING = 30, each a fresh
`AsyncStreamHandler`. -/
def withDefaultHandlers : List (Nat × HandlerState) :=
  [(10, freshHandler), (30, freshHandler)]

/-- Modelled from the spec: awaited dispatch of one admitted record — every
registered handler whose threshold admits the record's level receives one
`emit` call (all collaborators succeeding, default formatter). -/
def dispatchEmit (hs : List (Nat × HandlerState)) (r : LogRecord) :
    List (Nat × HandlerState) :=
  hs.map fun p => if p.1 ≤ r.level then (p.1, (emit okEnv p.2 r).1) else p

/-- Modelled from the spec: `Logger.info(msg)`, awaited to completion, builds
a record at level INFO = 20 and dispatches it to the registered handlers. -/
def info (hs : List (Nat × HandlerState)) (m : String) :
    List (Nat × HandlerState) :=
  dispatchEmit hs ⟨20, m⟩

/-- C9: a successful `emit` on an initialized handler writes exactly the
formatter's output for the record followed by the line terminator `"\n"` as a
single chunk and awaits the drain — everything previously buffered plus the
new line is delivered and nothing stays buffered; end to end, `info("Xablau")`
on a default-handler logger delivers the single sink line `"Xablau\n"` on the
DEBUG handler and nothing on the WARNING handler. -/
theorem emit_writes_formatted_line (env : EmitEnv) (s : HandlerState)
    (r : LogRecord) (t : String) (hinit : initialized s = true)
    (hfmt : env.fmt r = Except.ok t) (hw : env.writeOk = true)
    (hd : env.drainOk = true) :
    ((emit env s r).2 = EmitOutcome.ok ∧
     (emit env s r).1.sink.delivered =
       s.sink.delivered ++ s.sink.buffered ++ [t ++ terminator] ∧
     (emit env s r).1.sink.buffered = []) ∧
    (info withDefaultHandlers "Xablau").map (fun p => p.2.sink.delivered) =
      [["Xablau" ++ terminator], []] := by
  constructor
  · simp [emit, hinit, emitTry, hfmt, hw, hd, Sink.write, Sink.drain,
      List.append_assoc]
  · rfl

/-- Witness for `emit_writes_formatted_line` on a concrete initialized
handler. -/
theorem emit_writes_formatted_line_witness :
    ((emit okEnv demoInit rec0).2 = EmitOutcome.ok ∧
     (emit okEnv demoInit rec0).1.sink.delivered =
       demoInit.sink.delivered ++ demoInit.sink.buffered ++
         ["Xablau" ++ terminator] ∧
     (emit okEnv demoInit rec0).1.sink.buffered = []) ∧
    (info withDefaultHandlers "Xablau").map (fun p => p.2.sink.delivered) =
      [["Xablau" ++ terminator], []] :=
  emit_writes_formatted_line okEnv demoInit rec0 "Xablau" rfl rfl rfl rfl

/-- Program counter of one `emit` call's lazy-initialization phase, with one
step per cooperative suspension point of the source: `start` is emit's
`if not self.initialized` check, `lockWait` is the acquisition of
`self._initialization_lock` inside `_init_writer`, `connect` is the awaited
`loop.connect_write_pipe`, `assign` is the synchronous assignment of
`self.writer` followed by the lock release, and `ready` means the
initialization phase is over. -/
inductive InitPc where
  | start
  | lockWait
  | connect
  | assign
  | ready
deriving DecidableEq

/-- One concurrently running `emit` call in its initialization phase: its
program counter and the writer its own `connect_write_pipe` call returned. -/
structure RaceTask where
  pc : InitPc
  localWriter : Option Nat
deriving DecidableEq

/-- Shared handler state under K concurrent `emit` calls: `self.writer`,
whether `self._initialization_lock` is held, the number of
`connect_write_pipe` acquisitions performed so far, and the task states. -/
structure RaceState where
  writer : Option Nat
  lockHeld : Bool
  acquisitions : Nat
  tasks : List RaceTask
deriving DecidableEq

/-- One cooperative step of task `i` in the initialization phase, straight
from the source: the `initialized` check is performed OUTSIDE the lock, and
`_init_writer` never re-checks it after acquiring the lock. -/
def raceStep (st : RaceState) (i : Nat) : RaceState :=
  match st.tasks.get? i with
  | none => st
  | some t =>
    match t.pc with
    | InitPc.start =>
      if st.writer.isSome then
        { st with tasks := st.tasks.set i { t with pc := InitPc.ready } }
      else
        { st with tasks := st.tasks.set i { t with pc := InitPc.lockWait } }
    | InitPc.lockWait =>
      if st.lockHeld then st
      else
        { st with lockHeld := true,
                  tasks := st.tasks.set i { t with pc := InitPc.connect } }
    | InitPc.connect =>
      { st with acquisitions := st.acquisitions + 1,
                tasks := st.tasks.set i
                  { t with pc := InitPc.assign,
                           localWriter := some (st.acquisitions + 1) } }
    | InitPc.assign =>
      { st with writer := t.localWriter, lockHeld := false,
                tasks := st.tasks.set i { t with pc := InitPc.ready } }
    | InitPc.ready => st

/-- Run the initialization-phase system under a schedule (a list of task
indices; an index that is out of range or whose task is blocked consumes the
step without effect). -/
def raceRun (st : RaceState) : List Nat → RaceState
  | [] => st
  | i :: sched => raceRun (raceStep st i) sched

/-- K concurrent `emit` calls on a never-initialized handler. -/
def raceStart (k : Nat) : RaceState :=
  ⟨none, false, 0, List.replicate k ⟨InitPc.start, none⟩⟩

/-- C1 (code bug): with K = 2 concurrent `emit` calls on a never-initialized
handler there is a cooperative schedule — both calls pass emit's
`initialized` check before either finishes initializing — under which BOTH
calls perform the underlying `connect_write_pipe` sink acquisition: the
second assignment overwrites the writer produced by the first, which is
orphaned.  This happens because `_init_writer` does not re-check
`initialized` after acquiring the lock.  A fully sequential schedule performs
exactly one acquisition, so the claimed "exactly one sink-acquisition" fails
on the racing schedule. -/
theorem emit_init_race_double_acquisition :
    (raceRun (raceStart 2) [0, 1, 0, 0, 0, 1, 1, 1]).acquisitions = 2 ∧
    (raceRun (raceStart 2) [0, 1, 0, 0, 0, 1, 1, 1]).writer = some 2 ∧
    (raceRun (raceStart 2) [0, 1, 0, 0, 0, 1, 1, 1]).tasks =
      [⟨InitPc.ready, some 1⟩, ⟨InitPc.ready, some 2⟩] ∧
    (raceRun (raceStart 2) [0, 0, 0, 0, 1]).acquisitions = 1 := by
  decide

/-- Program counter of one `emit` call's write phase on an initialized
handler: the synchronous segment `format` + `writer.write` — no suspension
between them, so the whole encoded line is handed to the sink in one step —
followed by the awaited `writer.drain`. -/
inductive WritePc where
  | toWrite
  | toDrain
  | wdone
deriving DecidableEq

/-- One concurrently running `emit` call in its write phase. -/
structure WriteTask where
  pc : WritePc
  line : String
deriving DecidableEq

/-- The shared sink plus the task states of the concurrent write phases. -/
structure WriteSys where
  sink : Sink
  tasks : List WriteTask
deriving DecidableEq

/-- One cooperative step of write-phase task `i`. -/
def wStep (st : WriteSys) (i : Nat) : WriteSys :=
  match st.tasks.get? i with
  | none => st
  | some t =>
    match t.pc with
    | WritePc.toWrite =>
      { sink := st.sink.write t.line,
        tasks := st.tasks.set i { t with pc := WritePc.toDrain } }
    | WritePc.toDrain =>
      { sink := st.sink.drain,
        tasks := st.tasks.set i { t with pc := WritePc.wdone } }
    | WritePc.wdone => st

/-- Run the write-phase system under a schedule. -/
def wRun (st : WriteSys) : List Nat → WriteSys
  | [] => st
  | i :: sched => wRun (wStep st i) sched

/-- Two `emit` calls for messages `m1` (task 0) and `m2` (task 1) on the same
initialized handler over an initially empty sink. -/
def twoEmits (m1 m2 : String) : WriteSys :=
  ⟨⟨[], []⟩,
   [⟨WritePc.toWrite, m1 ++ terminator⟩, ⟨WritePc.toWrite, m2 ++ terminator⟩]⟩

/-- Invariant of the write-phase system: every task's pending line and every
chunk the sink holds is one of the two complete lines. -/
def WInv (l1 l2 : String) (st : WriteSys) : Prop :=
  (∀ t ∈ st.tasks, t.line = l1 ∨ t.line = l2) ∧
  (∀ c : String,
    c ∈ st.sink.buffered ∨ c ∈ st.sink.delivered → c = l1 ∨ c = l2)

/-- One step preserves the write-phase invariant. -/
theorem wStep_inv (l1 l2 : String) (st : WriteSys) (i : Nat)
    (h : WInv l1 l2 st) : WInv l1 l2 (wStep st i) := by
  obtain ⟨ht, hc⟩ := h
  cases hg : st.tasks.get? i with
  | none => simpa only [wStep, hg] using And.intro ht hc
  | some t =>
    obtain ⟨pc, line⟩ := t
    have htl : line = l1 ∨ line = l2 := ht ⟨pc, line⟩ (List.get?_mem hg)
    cases pc with
    | toWrite =>
      refine ⟨?_, ?_⟩
      · intro q hq
        simp only [wStep, hg] at hq
        rcases List.mem_or_eq_of_mem_set hq with hq' | rfl
        · exact ht q hq'
        · exact htl
      · intro c hcm
        simp only [wStep, hg, Sink.write, List.mem_append,
          List.mem_singleton] at hcm
        rcases hcm with (hb | rfl) | hd
        · exact hc c (Or.inl hb)
        · exact htl
        · exact hc c (Or.inr hd)
    | toDrain =>
      refine ⟨?_, ?_⟩
      · intro q hq
        simp only [wStep, hg] at hq
        rcases List.mem_or_eq_of_mem_set hq with hq' | rfl
        · exact ht q hq'
        · exact htl
      · intro c hcm
        simp only [wStep, hg, Sink.drain, List.not_mem_nil, List.mem_append,
          false_or] at hcm
        rcases hcm with hd | hb
        · exact hc c (Or.inr hd)
        · exact hc c (Or.inl hb)
    | wdone => simpa only [wStep, hg] using And.intro ht hc

/-- Any schedule preserves the write-phase invariant. -/
theorem wRun_inv (l1 l2 : String) (sched : List Nat) (st : WriteSys)
    (h : WInv l1 l2 st) : WInv l1 l2 (wRun st sched) := by
  induction sched generalizing st with
  | nil => exact h
  | cons i sched ih => exact ih _ (wStep_inv l1 l2 st i h)

/-- C8: two log calls on the same handler awaited in order — the first emit
runs to completion before the second starts — deliver the complete line for
the first message before the complete line for the second; and under EVERY
cooperative schedule each chunk the sink ever holds is one of the two
complete lines, so partial lines never interleave: each emit hands the whole
encoded line to the sink before yielding control for that call's drain. -/
theorem emit_line_atomic_and_ordered (m1 m2 : String) :
    (wRun (twoEmits m1 m2) [0, 0, 1, 1]).sink.delivered =
      [m1 ++ terminator, m2 ++ terminator] ∧
    ∀ sched : List Nat, ∀ c : String,
      c ∈ (wRun (twoEmits m1 m2) sched).sink.buffered ∨
        c ∈ (wRun (twoEmits m1 m2) sched).sink.delivered →
      c = m1 ++ terminator ∨ c = m2 ++ terminator := by
  constructor
  · rfl
  · intro sched c hmem
    have hinv : WInv (m1 ++ terminator) (m2 ++ terminator)
        (wRun (twoEmits m1 m2) sched) := by
      apply wRun_inv
      refine ⟨?_, ?_⟩
      · intro t ht
        simp only [twoEmits, List.mem_cons, List.not_mem_nil, or_false] at ht
        rcases ht with rfl | rfl
        · exact Or.inl rfl
        · exact Or.inr rfl
      · intro c2 hcm
        simp only [twoEmits, List.not_mem_nil, or_self] at hcm
    exact hinv.2 c hmem

/-- Witness for `emit_line_atomic_and_ordered` at the messages of the spec's
ordering example. -/
theorem emit_line_atomic_and_ordered_witness :
    (wRun (twoEmits "first" "second") [0, 0, 1, 1]).sink.delivered =
      ["first" ++ terminator, "second" ++ terminator] ∧
    ("first" ++ terminator = "first" ++ terminator ∨
      "first" ++ terminator = "second" ++ terminator) :=
  ⟨(emit_line_atomic_and_ordered "first" "second").1,
   (emit_line_atomic_and_ordered "first" "second").2 [0]
     ("first" ++ terminator)
     (Or.inl (by simp [wRun, wStep, twoEmits, Sink.write]))⟩

/-- Modelled from the spec: the handler-selection loop of
`Logger.call_handlers` (class `Logger` is not under src/; its tests at
`src/tests/test_logger.py` lines 84-119 pin the behavior): iterate the
registered handlers — represented by their thresholds, identified by
registration index starting at `i` — in order, recording one `handle` call
for every handler whose threshold admits the record's level. -/
def dispatchLoop (levels : List Nat) (lvl : Nat) (i : Nat) : List Nat :=
  match levels with
  | [] => []
  | l :: rest =>
    if l ≤ lvl then i :: dispatchLoop rest lvl (i + 1)
    else dispatchLoop rest lvl (i + 1)

/-- Modelled from the spec: `Logger.call_handlers(record)` — dispatch the
record to every admitting registered handler, raising the unroutable-record
error when no handler admits it. -/
def call_handlers (levels : List Nat) (r : LogRecord) :
    Except PyExc (List Nat) :=
  let calls := dispatchLoop levels r.level 0
  if calls = [] then Except.error PyExc.noHandlersError else Except.ok calls

/-- Index `j` is dispatched exactly when its handler's threshold admits the
level. -/
theorem mem_dispatchLoop (levels : List Nat) (lvl : Nat) :
    ∀ i j : Nat, j ∈ dispatchLoop levels lvl i ↔
      ∃ k l, levels.get? k = some l ∧ j = i + k ∧ l ≤ lvl := by
  induction levels with
  | nil => intro i j; simp [dispatchLoop]
  | cons l rest ih =>
    intro i j
    constructor
    · intro hj
      by_cases hl : l ≤ lvl
      · simp only [dispatchLoop, if_pos hl, List.mem_cons] at hj
        rcases hj with rfl | hj
        · exact ⟨0, l, rfl, by simp, hl⟩
        · obtain ⟨k, l', hget, rfl, hle⟩ := (ih (i + 1) j).mp hj
          exact ⟨k + 1, l', by simpa using hget, by omega, hle⟩
      · simp only [dispatchLoop, if_neg hl] at hj
        obtain ⟨k, l', hget, rfl, hle⟩ := (ih (i + 1) j).mp hj
        exact ⟨k + 1, l', by simpa using hget, by omega, hle⟩
    · rintro ⟨k, l', hget, rfl, hle⟩
      cases k with
      | zero =>
        have hll : l = l' := by
          simp only [List.get?_cons_zero, Option.some.injEq] at hget
          exact hget
        subst hll
        simp [dispatchLoop, if_pos hle]
      | succ k =>
        have hget' : rest.get? k = some l' := by simpa using hget
        have hmem : i + (k + 1) ∈ dispatchLoop rest lvl (i + 1) :=
          (ih (i + 1) (i + (k + 1))).mpr ⟨k, l', hget', by omega, hle⟩
        by_cases hl : l ≤ lvl
        · simp only [dispatchLoop, if_pos hl, List.mem_cons]
          exact Or.inr hmem
        · simpa only [dispatchLoop, if_neg hl] using hmem

/-- Every dispatched index is at least the starting index. -/
theorem le_of_mem_dispatchLoop (levels : List Nat) (lvl : Nat) :
    ∀ i j : Nat, j ∈ dispatchLoop levels lvl i → i ≤ j := by
  induction levels with
  | nil => intro i j h; simp [dispatchLoop] at h
  | cons l rest ih =>
    intro i j h
    by_cases hl : l ≤ lvl
    · simp only [dispatchLoop, if_pos hl, List.mem_cons] at h
      rcases h with rfl | h
      · exact Nat.le_refl j
      · exact Nat.le_of_succ_le (ih (i + 1) j h)
    · simp only [dispatchLoop, if_neg hl] at h
      exact Nat.le_of_succ_le (ih (i + 1) j h)

/-- The dispatch trace contains no duplicate handler index. -/
theorem nodup_dispatchLoop (levels : List Nat) (lvl : Nat) :
    ∀ i : Nat, (dispatchLoop levels lvl i).Nodup := by
  induction levels with
  | nil => intro i; simp [dispatchLoop]
  | cons l rest ih =>
    intro i
    by_cases hl : l ≤ lvl
    · simp only [dispatchLoop, if_pos hl, List.nodup_cons]
      refine ⟨fun hmem => ?_, ih (i + 1)⟩
      have := le_of_mem_dispatchLoop rest lvl (i + 1) i hmem
      omega
    · simpa only [dispatchLoop, if_neg hl] using ih (i + 1)

/-- C4 (spec-modelled): dispatch routes by threshold.  When no registered
handler's threshold admits the record's level, `call_handlers` raises the
unroutable-record error; otherwise it succeeds, and in the resulting trace of
handle calls every admitting handler (by registration index) occurs exactly
once and every non-admitting handler occurs zero times. -/
theorem call_handlers_routes (levels : List Nat) (r : LogRecord) :
    ((∀ k l, levels.get? k = some l → ¬ l ≤ r.level) →
      call_handlers levels r = Except.error PyExc.noHandlersError) ∧
    ((∃ k l, levels.get? k = some l ∧ l ≤ r.level) →
      ∃ trace, call_handlers levels r = Except.ok trace) ∧
    (∀ trace, call_handlers levels r = Except.ok trace →
      ∀ k l, levels.get? k = some l →
        (l ≤ r.level → trace.count k = 1) ∧
        (¬ l ≤ r.level → trace.count k = 0)) := by
  refine ⟨?_, ?_, ?_⟩
  · intro hnone
    have hnil : dispatchLoop levels r.level 0 = [] := by
      rw [List.eq_nil_iff_forall_not_mem]
      intro j hj
      obtain ⟨k, l, hget, rfl, hle⟩ :=
        (mem_dispatchLoop levels r.level 0 j).mp hj
      exact hnone k l hget hle
    simp [call_handlers, hnil]
  · rintro ⟨k, l, hget, hle⟩
    have hmem : 0 + k ∈ dispatchLoop levels r.level 0 :=
      (mem_dispatchLoop levels r.level 0 (0 + k)).mpr ⟨k, l, hget, rfl, hle⟩
    have hne : dispatchLoop levels r.level 0 ≠ [] :=
      List.ne_nil_of_mem hmem
    exact ⟨dispatchLoop levels r.level 0, by simp [call_handlers, hne]⟩
  · intro trace htr k l hget
    have htrace : trace = dispatchLoop levels r.level 0 := by
      by_cases hnil : dispatchLoop levels r.level 0 = []
      · simp [call_handlers, hnil] at htr
      · simp only [call_handlers, if_neg hnil] at htr
        injection htr with h
        exact h.symm
    subst htrace
    constructor
    · intro hle
      refine List.count_eq_one_of_mem (nodup_dispatchLoop levels r.level 0) ?_
      have : 0 + k = k := by omega
      exact this ▸ (mem_dispatchLoop levels r.level 0 (0 + k)).mpr
        ⟨k, l, hget, rfl, hle⟩
    · intro hle
      refine List.count_eq_zero_of_not_mem ?_
      intro hmem
      obtain ⟨k', l', hget', hk, hle'⟩ :=
        (mem_dispatchLoop levels r.level 0 k).mp hmem
      have hkk : k' = k := by omega
      subst hkk
      rw [hget] at hget'
      injection hget' with h
      exact hle (h ▸ hle')

/-- Witness for `call_handlers_routes` at the test scenario: thresholds 10
and 30, record level 20 — the indexed trace is exactly one call to handler 0
and none to handler 1. -/
theorem call_handlers_routes_witness :
    call_handlers [10, 30] ⟨20, "Xablau!"⟩ = Except.ok [0] ∧
    (([0] : List Nat).count 0 = 1 ∧ ([0] : List Nat).count 1 = 0) :=
  ⟨by rfl,
   ((call_handlers_routes [10, 30] ⟨20, "Xablau!"⟩).2.2 [0] rfl 0 10 rfl).1
     (by decide),
   ((call_handlers_routes [10, 30] ⟨20, "Xablau!"⟩).2.2 [0] rfl 1 30 rfl).2
     (by decide)⟩

/-- Abstract view of one registered handler at shutdown time: whether it is
currently initialized, and whether its `flush` and `close` calls succeed. -/
structure ShHandler where
  initialized : Bool
  flushOk : Bool
  closeOk : Bool
deriving DecidableEq

/-- Observable shutdown events: a `flush` or a `close` call on the handler at
registration index `i`. -/
inductive Ev where
  | flush (i : Nat)
  | close (i : Nat)
deriving DecidableEq

/-- `handler.flush()` as seen by shutdown. -/
def flushH (h : ShHandler) : Except PyExc Unit :=
  if h.flushOk then Except.ok () else Except.error PyExc.valueError

/-- `handler.close()` as seen by shutdown. -/
def closeH (h : ShHandler) : Except PyExc Unit :=
  if h.closeOk then Except.ok () else Except.error PyExc.valueError

/-- Modelled from the spec: one iteration of shutdown's per-handler loop —
`if handler.initialized: await handler.flush(); await handler.close()` with
every failure caught, so a failing flush skips that handler's close and
nothing propagates.  Returns the calls the iteration performs. -/
def shutdownHandlerStep (h : ShHandler) (i : Nat) : List Ev :=
  if h.initialized then
    match flushH h with
    | Except.error _ => [Ev.flush i]
    | Except.ok _ =>
      match closeH h with
      | Except.error _ => [Ev.flush i, Ev.close i]
      | Except.ok _ => [Ev.flush i, Ev.close i]
  else []

/-- The events of the whole per-handler shutdown loop starting at index
`i`. -/
def bodyEvents (handlers : List ShHandler) (i : Nat) : List Ev :=
  match handlers with
  | [] => []
  | h :: rest => shutdownHandlerStep h i ++ bodyEvents rest (i + 1)

/-- Modelled from the spec: the `Logger` state relevant to shutdown — the
one-shot guard and the registered handlers. -/
structure LoggerState where
  wasShutdown : Bool
  handlers : List ShHandler
deriving DecidableEq

/-- Modelled from the spec: `Logger.shutdown()` — a one-shot guard, set
synchronously before the first suspension point so that concurrent callers
coordinate, followed by the per-handler flush/close loop with failures
caught.  Returns the new state and the calls performed. -/
def shutdown (s : LoggerState) : LoggerState × List Ev :=
  if s.wasShutdown then (s, [])
  else ({ s with wasShutdown := true }, bodyEvents s.handlers 0)

/-- Normal form of one shutdown loop iteration. -/
theorem shutdownHandlerStep_eq (h : ShHandler) (i : Nat) :
    shutdownHandlerStep h i =
      if h.initialized then
        (if h.flushOk then [Ev.flush i, Ev.close i] else [Ev.flush i])
      else [] := by
  cases hi : h.initialized <;> cases hf : h.flushOk <;>
    cases hc : h.closeOk <;>
      simp [shutdownHandlerStep, flushH, closeH, hi, hf, hc]

/-- The events one loop iteration can perform. -/
theorem mem_step_iff (h : ShHandler) (i : Nat) (e : Ev) :
    e ∈ shutdownHandlerStep h i ↔
      (h.initialized = true ∧ e = Ev.flush i) ∨
      (h.initialized = true ∧ h.flushOk = true ∧ e = Ev.close i) := by
  rw [shutdownHandlerStep_eq]
  cases hi : h.initialized with
  | false => simp
  | true =>
    cases hf : h.flushOk with
    | false => simp
    | true => simp

/-- The registration index named by a shutdown event. -/
def evIdx : Ev → Nat
  | Ev.flush i => i
  | Ev.close i => i

/-- Every event of the loop suffix starting at `i` names an index ≥ `i`. -/
theorem le_evIdx_of_mem_bodyEvents (handlers : List ShHandler) :
    ∀ i, ∀ e ∈ bodyEvents handlers i, i ≤ evIdx e := by
  induction handlers with
  | nil => intro i e he; simp [bodyEvents] at he
  | cons h rest ih =>
    intro i e he
    simp only [bodyEvents, List.mem_append] at he
    rcases he with he | he
    · rcases (mem_step_iff h i e).mp he with ⟨_, rfl⟩ | ⟨_, _, rfl⟩
      · exact Nat.le_refl i
      · exact Nat.le_refl i
    · exact Nat.le_of_succ_le (ih (i + 1) e he)

/-- The shutdown loop never repeats a call. -/
theorem nodup_bodyEvents (handlers : List ShHandler) :
    ∀ i, (bodyEvents handlers i).Nodup := by
  induction handlers with
  | nil => intro i; simp [bodyEvents]
  | cons h rest ih =>
    intro i
    simp only [bodyEvents]
    rw [List.nodup_append]
    refine ⟨?_, ih (i + 1), ?_⟩
    · rw [shutdownHandlerStep_eq]
      cases hi : h.initialized <;> cases hf : h.flushOk <;> simp
    · intro e he hmem
      have h2 := le_evIdx_of_mem_bodyEvents rest (i + 1) e hmem
      rcases (mem_step_iff h i e).mp he with ⟨_, rfl⟩ | ⟨_, _, rfl⟩
      · simp [evIdx] at h2
      · simp [evIdx] at h2

/-- Which flush calls the shutdown loop performs. -/
theorem flush_mem_bodyEvents (handlers : List ShHandler) :
    ∀ i j, Ev.flush j ∈ bodyEvents handlers i ↔
      ∃ k h, handlers.get? k = some h ∧ j = i + k ∧
        h.initialized = true := by
  induction handlers with
  | nil => intro i j; simp [bodyEvents]
  | cons h rest ih =>
    intro i j
    simp only [bodyEvents, List.mem_append, mem_step_iff, ih]
    constructor
    · intro hcase
      rcases hcase with (⟨h1, he⟩ | ⟨h1, h2, he⟩) | ⟨k, h', hget, rfl, h1⟩
      · injection he with hj
        exact ⟨0, h, rfl, by omega, h1⟩
      · exact absurd he (by simp)
      · exact ⟨k + 1, h', by simpa using hget, by omega, h1⟩
    · rintro ⟨k, h', hget, rfl, h1⟩
      cases k with
      | zero =>
        have hh : h = h' := by
          simp only [List.get?_cons_zero, Option.some.injEq] at hget
          exact hget
        subst hh
        exact Or.inl (Or.inl ⟨h1, by simp⟩)
      | succ k =>
        exact Or.inr ⟨k, h', by simpa using hget, by omega, h1⟩

/-- Which close calls the shutdown loop performs: exactly the initialized
handlers whose flush succeeded. -/
theorem close_mem_bodyEvents (handlers : List ShHandler) :
    ∀ i j, Ev.close j ∈ bodyEvents handlers i ↔
      ∃ k h, handlers.get? k = some h ∧ j = i + k ∧
        h.initialized = true ∧ h.flushOk = true := by
  induction handlers with
  | nil => intro i j; simp [bodyEvents]
  | cons h rest ih =>
    intro i j
    simp only [bodyEvents, List.mem_append, mem_step_iff, ih]
    constructor
    · intro hcase
      rcases hcase with (⟨h1, he⟩ | ⟨h1, h2, he⟩) | ⟨k, h', hget, rfl, h1, h2⟩
      · exact absurd he (by simp)
      · injection he with hj
        exact ⟨0, h, rfl, by omega, h1, h2⟩
      · exact ⟨k + 1, h', by simpa using hget, by omega, h1, h2⟩
    · rintro ⟨k, h', hget, rfl, h1, h2⟩
      cases k with
      | zero =>
        have hh : h = h' := by
          simp only [List.get?_cons_zero, Option.some.injEq] at hget
          exact hget
        subst hh
        exact Or.inl (Or.inr ⟨h1, h2, by simp⟩)
      | succ k =>
        exact Or.inr ⟨k, h', by simpa using hget, by omega, h1, h2⟩

/-- Exact per-handler call counts of one run of the shutdown loop. -/
theorem count_bodyEvents (handlers : List ShHandler) (k : Nat)
    (h : ShHandler) (hget : handlers.get? k = some h) :
    (h.initialized = true →
      (bodyEvents handlers 0).count (Ev.flush k) = 1 ∧
      (h.flushOk = true → (bodyEvents handlers 0).count (Ev.close k) = 1) ∧
      (h.flushOk = false →
        (bodyEvents handlers 0).count (Ev.close k) = 0)) ∧
    (h.initialized = false →
      (bodyEvents handlers 0).count (Ev.flush k) = 0 ∧
      (bodyEvents handlers 0).count (Ev.close k) = 0) := by
  constructor
  · intro hinit
    refine ⟨?_, ?_, ?_⟩
    · refine List.count_eq_one_of_mem (nodup_bodyEvents handlers 0) ?_
      exact (flush_mem_bodyEvents handlers 0 k).mpr
        ⟨k, h, hget, by omega, hinit⟩
    · intro hfl
      refine List.count_eq_one_of_mem (nodup_bodyEvents handlers 0) ?_
      exact (close_mem_bodyEvents handlers 0 k).mpr
        ⟨k, h, hget, by omega, hinit, hfl⟩
    · intro hfl
      refine List.count_eq_zero_of_not_mem fun hmem => ?_
      obtain ⟨k', h', hget', hk, _, h2⟩ :=
        (close_mem_bodyEvents handlers 0 k).mp hmem
      have hkk : k' = k := by omega
      subst hkk
      rw [hget] at hget'
      injection hget' with hh
      rw [← hh] at h2
      rw [hfl] at h2
      exact Bool.false_ne_true h2
  · intro hinit
    constructor
    · refine List.count_eq_zero_of_not_mem fun hmem => ?_
      obtain ⟨k', h', hget', hk, h1⟩ :=
        (flush_mem_bodyEvents handlers 0 k).mp hmem
      have hkk : k' = k := by omega
      subst hkk
      rw [hget] at hget'
      injection hget' with hh
      rw [← hh] at h1
      rw [hinit] at h1
      exact Bool.false_ne_true h1
    · refine List.count_eq_zero_of_not_mem fun hmem => ?_
      obtain ⟨k', h', hget', hk, h1, _⟩ :=
        (close_mem_bodyEvents handlers 0 k).mp hmem
      have hkk : k' = k := by omega
      subst hkk
      rw [hget] at hget'
      injection hget' with hh
      rw [← hh] at h1
      rw [hinit] at h1
      exact Bool.false_ne_true h1

/-- C7 (spec-modelled): shutdown catches per-handler failures: it completes
normally with the guard set, every initialized handler is flushed exactly
once no matter which other handlers fail, every initialized handler whose own
flush succeeded is closed exactly once, and a handler whose own flush failed
is not closed (matching `test_shutdown_ignores_erros`). -/
theorem shutdown_isolates_failures (handlers : List ShHandler) :
    (shutdown ⟨false, handlers⟩).1 = ⟨true, handlers⟩ ∧
    ∀ k h, handlers.get? k = some h → h.initialized = true →
      ((shutdown ⟨false, handlers⟩).2.count (Ev.flush k) = 1 ∧
       (h.flushOk = true →
         (shutdown ⟨false, handlers⟩).2.count (Ev.close k) = 1) ∧
       (h.flushOk = false →
         (shutdown ⟨false, handlers⟩).2.count (Ev.close k) = 0)) := by
  refine ⟨rfl, ?_⟩
  intro k h hget hinit
  exact (count_bodyEvents handlers k h hget).1 hinit

/-- The handler list of `test_shutdown_ignores_erros`: the first handler's
flush fails, the second is healthy. -/
def failingHandlers : List ShHandler := [⟨true, false, true⟩, ⟨true, true, true⟩]

/-- Witness for `shutdown_isolates_failures` at the test scenario. -/
theorem shutdown_isolates_failures_witness :
    (shutdown ⟨false, failingHandlers⟩).2.count (Ev.flush 0) = 1 ∧
    (shutdown ⟨false, failingHandlers⟩).2.count (Ev.close 0) = 0 ∧
    (shutdown ⟨false, failingHandlers⟩).2.count (Ev.flush 1) = 1 ∧
    (shutdown ⟨false, failingHandlers⟩).2.count (Ev.close 1) = 1 :=
  ⟨((shutdown_isolates_failures failingHandlers).2 0 ⟨true, false, true⟩
      rfl rfl).1,
   ((shutdown_isolates_failures failingHandlers).2 0 ⟨true, false, true⟩
      rfl rfl).2.2 rfl,
   ((shutdown_isolates_failures failingHandlers).2 1 ⟨true, true, true⟩
      rfl rfl).1,
   ((shutdown_isolates_failures failingHandlers).2 1 ⟨true, true, true⟩
      rfl rfl).2.1 rfl⟩

/-- `List.set` then `get?` at the written position. -/
theorem get?_set_self (l : List α) (p : Nat) (a : α) (hp : p < l.length) :
    (l.set p a).get? p = some a := by
  rw [List.get?_eq_getElem?]
  exact List.getElem?_set_self hp

/-- `List.set` then `get?` at a different position. -/
theorem get?_set_ne (l : List α) (p q : Nat) (a : α) (hpq : p ≠ q) :
    (l.set p a).get? q = l.get? q := by
  rw [List.get?_eq_getElem?, List.get?_eq_getElem?, List.getElem?_set_ne hpq]

/-- A successful `get?` bounds the index. -/
theorem lt_length_of_get?_eq_some (l : List α) (n : Nat) (a : α)
    (h : l.get? n = some a) : n < l.length := by
  rcases List.get?_eq_some.mp h with ⟨hlt, _⟩
  exact hlt

/-- Program counter of one concurrent `shutdown()` call: `idle` — has not yet
run the guard check; `body k` — won the guard and is about to process the
handler at index `k`; `finished` — returned. -/
inductive ProcPc where
  | idle
  | body (k : Nat)
  | finished
deriving DecidableEq

/-- Global state of M concurrent `shutdown()` calls on one logger: the
one-shot guard, the per-call program counters, and the trace of flush/close
calls performed so far. -/
structure ShutSys where
  wasShutdown : Bool
  procs : List ProcPc
  trace : List Ev
deriving DecidableEq

/-- Modelled from the spec: one cooperative step of shutdown call `p`.  The
guard check-and-set is one atomic step — no suspension separates reading the
guard from setting it — and each per-handler loop iteration, with its awaited
flush/close, is one step. -/
def shStep (handlers : List ShHandler) (st : ShutSys) (p : Nat) : ShutSys :=
  match st.procs.get? p with
  | none => st
  | some ProcPc.idle =>
    if st.wasShutdown then
      { st with procs := st.procs.set p ProcPc.finished }
    else
      { st with wasShutdown := true,
                procs := st.procs.set p (ProcPc.body 0) }
  | some (ProcPc.body k) =>
    match handlers.get? k with
    | some h =>
      { st with trace := st.trace ++ shutdownHandlerStep h k,
                procs := st.procs.set p (ProcPc.body (k + 1)) }
    | none => { st with procs := st.procs.set p ProcPc.finished }
  | some ProcPc.finished => st

/-- Run the concurrent-shutdown system under a schedule. -/
def shRun (handlers : List ShHandler) (st : ShutSys) : List Nat → ShutSys
  | [] => st
  | p :: sched => shRun handlers (shStep handlers st p) sched

/-- M concurrent shutdown calls, none started, nothing performed. -/
def shInit (M : Nat) : ShutSys := ⟨false, List.replicate M ProcPc.idle, []⟩

/-- Every shutdown call has run to completion. -/
def Completed (st : ShutSys) : Prop := ∀ q ∈ st.procs, q = ProcPc.finished

/-- The events of the first `k` iterations of the shutdown loop starting at
handler index `i`. -/
def bodyPrefix (handlers : List ShHandler) (i k : Nat) : List Ev :=
  match k, handlers with
  | 0, _ => []
  | _ + 1, [] => []
  | k + 1, h :: rest => shutdownHandlerStep h i ++ bodyPrefix rest (i + 1) k

/-- The empty prefix. -/
theorem bodyPrefix_zero (handlers : List ShHandler) (i : Nat) :
    bodyPrefix handlers i 0 = [] := by
  cases handlers <;> rfl

/-- A prefix covering every handler is the whole loop. -/
theorem bodyPrefix_full (handlers : List ShHandler) :
    ∀ i k, handlers.length ≤ k →
      bodyPrefix handlers i k = bodyEvents handlers i := by
  induction handlers with
  | nil =>
    intro i k hk
    cases k <;> simp [bodyPrefix, bodyEvents]
  | cons h rest ih =>
    intro i k hk
    cases k with
    | zero => simp at hk
    | succ k =>
      simp only [bodyPrefix, bodyEvents]
      rw [ih (i + 1) k (by simpa using hk)]

/-- Extending the completed prefix by one loop iteration. -/
theorem bodyPrefix_step (handlers : List ShHandler) :
    ∀ i k h, handlers.get? k = some h →
      bodyPrefix handlers i (k + 1) =
        bodyPrefix handlers i k ++ shutdownHandlerStep h (i + k) := by
  induction handlers with
  | nil => intro i k h hget; simp at hget
  | cons h0 rest ih =>
    intro i k h hget
    cases k with
    | zero =>
      have hh : h0 = h := by
        simp only [List.get?_cons_zero, Option.some.injEq] at hget
        exact hget
      subst hh
      simp [bodyPrefix]
    | succ k =>
      have hget' : rest.get? k = some h := by simpa using hget
      have harith : (i + 1) + k = i + (k + 1) := by omega
      simp only [bodyPrefix]
      rw [ih (i + 1) k h hget', harith, List.append_assoc]

/-- Invariant of the concurrent-shutdown system: before anyone ran the guard
nothing has happened; once the guard is set there is at most one caller — the
winner — inside the loop and the trace is exactly the prefix of loop
iterations the winner completed; once nobody is inside the loop the trace is
the entire loop. -/
def ShutInv (handlers : List ShHandler) (st : ShutSys) : Prop :=
  (st.wasShutdown = false ∧ st.trace = [] ∧
    ∀ q ∈ st.procs, q = ProcPc.idle) ∨
  (st.wasShutdown = true ∧
    ((∃ p k, st.procs.get? p = some (ProcPc.body k) ∧
        st.trace = bodyPrefix handlers 0 k ∧
        ∀ j q, st.procs.get? j = some q → j ≠ p →
          q = ProcPc.idle ∨ q = ProcPc.finished) ∨
     (st.trace = bodyEvents handlers 0 ∧
      ∀ q ∈ st.procs, q = ProcPc.idle ∨ q = ProcPc.finished)))

/-- The invariant holds initially. -/
theorem shInit_inv (handlers : List ShHandler) (M : Nat) :
    ShutInv handlers (shInit M) := by
  unfold ShutInv shInit
  left
  refine ⟨rfl, rfl, ?_⟩
  intro q hq
  exact List.eq_of_mem_replicate hq

/-- One step preserves the invariant. -/
theorem shStep_inv (handlers : List ShHandler) (st : ShutSys) (p : Nat)
    (h : ShutInv handlers st) : ShutInv handlers (shStep handlers st p) := by
  unfold ShutInv at h ⊢
  cases hg : st.procs.get? p with
  | none => simpa only [shStep, hg] using h
  | some t =>
    have hp := lt_length_of_get?_eq_some st.procs p t hg
    have hgg : st.procs[p]? = some t := by
      rw [← List.get?_eq_getElem?]
      exact hg
    cases t with
    | idle =>
      rcases h with ⟨hws, htr, hall⟩ | ⟨hws, hwin⟩
      · have hstep : shStep handlers st p =
            { st with wasShutdown := true,
                      procs := st.procs.set p (ProcPc.body 0) } := by
          simp [shStep, hg, hgg, hws]
        rw [hstep]
        right
        refine ⟨rfl, Or.inl ⟨p, 0, ?_, ?_, ?_⟩⟩
        · exact get?_set_self st.procs p (ProcPc.body 0) hp
        · rw [bodyPrefix_zero]
          exact htr
        · intro j q hj hne
          rw [get?_set_ne st.procs p j (ProcPc.body 0)
            (fun he => hne he.symm)] at hj
          exact Or.inl (hall q (List.get?_mem hj))
      · have hstep : shStep handlers st p =
            { st with procs := st.procs.set p ProcPc.finished } := by
          simp [shStep, hg, hgg, hws]
        rw [hstep]
        right
        refine ⟨hws, ?_⟩
        rcases hwin with ⟨p0, k, hp0, htr, hothers⟩ | ⟨htr, hall⟩
        · have hpp : p ≠ p0 := by
            intro he
            subst he
            rw [hg] at hp0
            injection hp0 with hq
            exact ProcPc.noConfusion hq
          left
          refine ⟨p0, k, ?_, htr, ?_⟩
          · rw [get?_set_ne st.procs p p0 ProcPc.finished hpp]
            exact hp0
          · intro j q hj hne
            by_cases hjp : j = p
            · subst hjp
              rw [get?_set_self st.procs j ProcPc.finished hp] at hj
              injection hj with hq
              exact Or.inr hq.symm
            · rw [get?_set_ne st.procs p j ProcPc.finished
                (fun he => hjp he.symm)] at hj
              exact hothers j q hj hne
        · right
          refine ⟨htr, ?_⟩
          intro q hq
          rcases List.mem_or_eq_of_mem_set hq with hq' | rfl
          · exact hall q hq'
          · exact Or.inr rfl
    | body k =>
      rcases h with ⟨hws, htr, hall⟩ | ⟨hws, hwin⟩
      · exact absurd (hall (ProcPc.body k) (List.get?_mem hg)) (by simp)
      rcases hwin with ⟨p0, k0, hp0, htr, hothers⟩ | ⟨htr, hall⟩
      swap
      · rcases hall (ProcPc.body k) (List.get?_mem hg) with h1 | h1 <;>
          exact absurd h1 (by simp)
      have hpp : p = p0 := by
        by_contra hne
        rcases hothers p (ProcPc.body k) hg hne with h1 | h1 <;>
          exact absurd h1 (by simp)
      subst hpp
      have hkk : k = k0 := by
        rw [hg] at hp0
        injection hp0 with hq
        injection hq
      subst hkk
      cases hh : handlers.get? k with
      | some hd =>
        have hhh : handlers[k]? = some hd := by
          rw [← List.get?_eq_getElem?]
          exact hh
        have hstep : shStep handlers st p =
            { st with trace := st.trace ++ shutdownHandlerStep hd k,
                      procs := st.procs.set p (ProcPc.body (k + 1)) } := by
          simp [shStep, hg, hgg, hhh]
        rw [hstep]
        right
        refine ⟨hws, Or.inl ⟨p, k + 1, ?_, ?_, ?_⟩⟩
        · exact get?_set_self st.procs p (ProcPc.body (k + 1)) hp
        · rw [htr, bodyPrefix_step handlers 0 k hd hh]
          simp
        · intro j q hj hne
          rw [get?_set_ne st.procs p j (ProcPc.body (k + 1))
            (fun he => hne he.symm)] at hj
          exact hothers j q hj hne
      | none =>
        have hhh : handlers[k]? = none := by
          rw [← List.get?_eq_getElem?]
          exact hh
        have hstep : shStep handlers st p =
            { st with procs := st.procs.set p ProcPc.finished } := by
          simp [shStep, hg, hgg, hhh]
        rw [hstep]
        right
        refine ⟨hws, Or.inr ⟨?_, ?_⟩⟩
        · rw [htr]
          exact bodyPrefix_full handlers 0 k (List.get?_eq_none.mp hh)
        · intro q hq
          obtain ⟨j, hj⟩ := List.mem_iff_get?.mp hq
          by_cases hjp : j = p
          · subst hjp
            rw [get?_set_self st.procs j ProcPc.finished hp] at hj
            injection hj with hjq
            exact Or.inr hjq.symm
          · rw [get?_set_ne st.procs p j ProcPc.finished
              (fun he => hjp he.symm)] at hj
            exact hothers j q hj hjp
    | finished => simpa only [shStep, hg] using h

/-- Any schedule preserves the invariant. -/
theorem shRun_inv (handlers : List ShHandler) (sched : List Nat)
    (st : ShutSys) (h : ShutInv handlers st) :
    ShutInv handlers (shRun handlers st sched) := by
  induction sched generalizing st with
  | nil => exact h
  | cons p sched ih => exact ih _ (shStep_inv handlers st p h)

/-- Steps never change the number of shutdown calls. -/
theorem shStep_length (handlers : List ShHandler) (st : ShutSys) (p : Nat) :
    (shStep handlers st p).procs.length = st.procs.length := by
  cases hg : st.procs.get? p with
  | none =>
    have hgg : st.procs[p]? = none := by
      rw [← List.get?_eq_getElem?]
      exact hg
    simp [shStep, hg, hgg]
  | some t =>
    have hgg : st.procs[p]? = some t := by
      rw [← List.get?_eq_getElem?]
      exact hg
    cases t with
    | idle =>
      cases hws : st.wasShutdown <;>
        simp [shStep, hg, hgg, hws, List.length_set]
    | body k =>
      cases hh : handlers.get? k with
      | none =>
        have hhh : handlers[k]? = none := by
          rw [← List.get?_eq_getElem?]
          exact hh
        simp [shStep, hg, hgg, hhh, List.length_set]
      | some hd =>
        have hhh : handlers[k]? = some hd := by
          rw [← List.get?_eq_getElem?]
          exact hh
        simp [shStep, hg, hgg, hhh, List.length_set]
    | finished => simp [shStep, hg, hgg]

/-- Runs never change the number of shutdown calls. -/
theorem shRun_length (handlers : List ShHandler) (sched : List Nat)
    (st : ShutSys) :
    (shRun handlers st sched).procs.length = st.procs.length := by
  induction sched generalizing st with
  | nil => rfl
  | cons p sched ih =>
    exact (ih (shStep handlers st p)).trans (shStep_length handlers st p)

/-- C5 (spec-modelled): M ≥ 1 shutdown calls, racing under ANY cooperative
schedule that runs all of them to completion, flush and then close each
registered handler that is initialized exactly once (no flush failures
assumed), and never flush or close a handler that was never initialized. -/
theorem shutdown_concurrent_exactly_once (handlers : List ShHandler)
    (M : Nat) (sched : List Nat) (hM : 1 ≤ M)
    (hok : ∀ h ∈ handlers, h.flushOk = true)
    (hdone : Completed (shRun handlers (shInit M) sched)) :
    ∀ k h, handlers.get? k = some h →
      ((h.initialized = true →
        (shRun handlers (shInit M) sched).trace.count (Ev.flush k) = 1 ∧
        (shRun handlers (shInit M) sched).trace.count (Ev.close k) = 1) ∧
       (h.initialized = false →
        (shRun handlers (shInit M) sched).trace.count (Ev.flush k) = 0 ∧
        (shRun handlers (shInit M) sched).trace.count (Ev.close k) = 0)) := by
  have hinv := shRun_inv handlers sched (shInit M) (shInit_inv handlers M)
  have htrace : (shRun handlers (shInit M) sched).trace =
      bodyEvents handlers 0 := by
    unfold ShutInv at hinv
    rcases hinv with ⟨hws, htr, hall⟩ | ⟨hws, hwin⟩
    · exfalso
      have hpos : 0 < (shRun handlers (shInit M) sched).procs.length := by
        rw [shRun_length]
        simpa [shInit] using hM
      obtain ⟨q, hq⟩ := List.exists_mem_of_length_pos hpos
      have h1 := hall q hq
      have h2 := hdone q hq
      rw [h1] at h2
      exact ProcPc.noConfusion h2
    · rcases hwin with ⟨p, k0, hp, htr, hothers⟩ | ⟨htr, _⟩
      · exact absurd (hdone (ProcPc.body k0) (List.get?_mem hp)) (by simp)
      · exact htr
  intro k h hget
  rw [htrace]
  have hcounts := count_bodyEvents handlers k h hget
  constructor
  · intro hinit
    exact ⟨(hcounts.1 hinit).1,
      (hcounts.1 hinit).2.1 (hok h (List.get?_mem hget))⟩
  · intro hinit
    exact hcounts.2 hinit

/-- A concrete handler list for the concurrent-shutdown witness: one
initialized healthy handler and one never-initialized handler. -/
def demoShHandlers : List ShHandler :=
  [⟨true, true, true⟩, ⟨false, true, true⟩]

/-- Witness for `shutdown_concurrent_exactly_once`: three concurrent shutdown
calls under a racing schedule flush/close the initialized handler exactly
once and skip the never-initialized one. -/
theorem shutdown_concurrent_exactly_once_witness :
    (shRun demoShHandlers (shInit 3) [0, 1, 2, 0, 0, 0]).trace.count
      (Ev.flush 0) = 1 ∧
    (shRun demoShHandlers (shInit 3) [0, 1, 2, 0, 0, 0]).trace.count
      (Ev.close 0) = 1 ∧
    (shRun demoShHandlers (shInit 3) [0, 1, 2, 0, 0, 0]).trace.count
      (Ev.flush 1) = 0 ∧
    (shRun demoShHandlers (shInit 3) [0, 1, 2, 0, 0, 0]).trace.count
      (Ev.close 1) = 0 :=
  ⟨((shutdown_concurrent_exactly_once demoShHandlers 3 [0, 1, 2, 0, 0, 0]
      (by decide) (by decide) (by unfold Completed; decide) 0
      ⟨true, true, true⟩ rfl).1 rfl).1,
   ((shutdown_concurrent_exactly_once demoShHandlers 3 [0, 1, 2, 0, 0, 0]
      (by decide) (by decide) (by unfold Completed; decide) 0
      ⟨true, true, true⟩ rfl).1 rfl).2,
   ((shutdown_concurrent_exactly_once demoShHandlers 3 [0, 1, 2, 0, 0, 0]
      (by decide) (by decide) (by unfold Completed; decide) 1
      ⟨false, true, true⟩ rfl).2 rfl).1,
   ((shutdown_concurrent_exactly_once demoShHandlers 3 [0, 1, 2, 0, 0, 0]
      (by decide) (by decide) (by unfold Completed; decide) 1
      ⟨false, true, true⟩ rfl).2 rfl).2⟩

end Aiologger
